import Mathlib

/-!
Verification of the squarified-treemap library (`src/squarify/__init__.py`)
against its natural-language specification.

Modelling conventions:
* Python floats are modelled as exact rationals (`ℚ`); the library's only
  numeric operations are `+`, `-`, `*`, `/`, `int(...)` and comparisons, all
  exact on the inputs considered here.
* `int(x)` truncates toward zero; it is modelled by `pytrunc`.
* A Python division whose divisor is zero raises `ZeroDivisionError`; fallible
  computations therefore live in `Except PyErr`, and exception propagation is
  `Except.bind` (the first failing subexpression aborts the call, in Python's
  left-to-right evaluation order).
* `Area`, `Point` and `Rect` mirror the three NamedTuples of the source, with
  the operator overloads specialised to the call sites that actually occur
  (e.g. `Area(w, 0) + (0, h)` is `Area w h`).
-/

/-- Python exceptions that the library can raise. -/
inductive PyErr where
  | zeroDivision
  | typeError
  | valueError
  | recursionLimit
deriving DecidableEq, Repr

/-- The `Point` NamedTuple: integer x/y coordinates. -/
structure Point where
  x : ℤ
  y : ℤ
deriving DecidableEq, Repr

/-- The `Area` NamedTuple: integer width/height. -/
structure Area where
  width : ℤ
  height : ℤ
deriving DecidableEq, Repr

/-- The `Rect` NamedTuple: a top-left `Point` and an `Area`. -/
structure Rect where
  topleft : Point
  area : Area
deriving DecidableEq, Repr

/-- Python `int(x)` on a float: truncation toward zero
    (for negative arguments this is the ceiling, written `-⌊-q⌋`). -/
def pytrunc (q : ℚ) : ℤ := if 0 ≤ q then ⌊q⌋ else -⌊-q⌋

/-- Python true division `a / b`: raises `ZeroDivisionError` when `b` is 0. -/
def pydiv (a b : ℚ) : Except PyErr ℚ :=
  if b = 0 then .error .zeroDivision else .ok (a / b)

/-- Left-to-right effectful map over a list, stopping at the first error,
    as a Python list comprehension over fallible expressions does. -/
def mapExcept (f : α → Except PyErr β) : List α → Except PyErr (List β)
  | [] => .ok []
  | a :: as => (f a).bind fun b => (mapExcept f as).bind fun bs => .ok (b :: bs)

/-- Loop body of `layoutrow`: for each size emit
    `Rect(pt, Area(area.width, 0) + (0, int(size/width)))` and advance
    `pt` by `(0, int(size/width))`.  `aw` is `area.width`, `width` the value
    `sum(sizes) / area.height` computed once before the loop. -/
def layoutrowGo (aw : ℤ) (width : ℚ) : List ℚ → Point → Except PyErr (List Rect)
  | [], _ => .ok []
  | s :: rest, pt =>
    (pydiv s width).bind fun q =>
      (layoutrowGo aw width rest ⟨pt.x, pt.y + pytrunc q⟩).bind fun rs =>
        .ok (⟨pt, ⟨aw, pytrunc q⟩⟩ :: rs)

/-- Source `layoutrow(sizes, pt, area)`: `width = sum(sizes) / area.height`,
    then one rect per size, each of extent `Area(area.width, int(size/width))`,
    advancing the y coordinate. -/
def layoutrow (sizes : List ℚ) (pt : Point) (area : Area) : Except PyErr (List Rect) :=
  (pydiv sizes.sum (area.height : ℚ)).bind fun width =>
    layoutrowGo area.width width sizes pt

/-- Loop body of `layoutcol`: one rect per size of extent
    `Area(0, area.height) + (int(size/height), 0)`, advancing the x coordinate. -/
def layoutcolGo (ah : ℤ) (height : ℚ) : List ℚ → Point → Except PyErr (List Rect)
  | [], _ => .ok []
  | s :: rest, pt =>
    (pydiv s height).bind fun q =>
      (layoutcolGo ah height rest ⟨pt.x + pytrunc q, pt.y⟩).bind fun rs =>
        .ok (⟨pt, ⟨pytrunc q, ah⟩⟩ :: rs)

/-- Source `layoutcol(sizes, pt, area)`: `height = sum(sizes) / area.width`,
    then one rect per size, each of extent `Area(int(size/height), area.height)`. -/
def layoutcol (sizes : List ℚ) (pt : Point) (area : Area) : Except PyErr (List Rect) :=
  (pydiv sizes.sum (area.width : ℚ)).bind fun height =>
    layoutcolGo area.height height sizes pt

/-- Dispatch `layout`: row when `area.width >= area.height`, else column. -/
def layout (sizes : List ℚ) (pt : Point) (area : Area) : Except PyErr (List Rect) :=
  if area.height ≤ area.width then layoutrow sizes pt area else layoutcol sizes pt area

/-- Source `leftoverrow`, with `width = int(sum(sizes) / area.height)`; the leftover rect keeps
    the height and loses `width` columns on the left. -/
def leftoverrow (sizes : List ℚ) (pt : Point) (area : Area) : Except PyErr Rect :=
  (pydiv sizes.sum (area.height : ℚ)).bind fun q =>
    .ok ⟨⟨pt.x + pytrunc q, pt.y⟩, ⟨area.width - pytrunc q, area.height⟩⟩

/-- Source `leftovercol`, with `height = int(sum(sizes) / area.width)`; the leftover rect keeps
    the width and loses `height` rows on top. -/
def leftovercol (sizes : List ℚ) (pt : Point) (area : Area) : Except PyErr Rect :=
  (pydiv sizes.sum (area.width : ℚ)).bind fun q =>
    .ok ⟨⟨pt.x, pt.y + pytrunc q⟩, ⟨area.width, area.height - pytrunc q⟩⟩

/-- Dispatch `leftover`: row when `area.width >= area.height`, else column. -/
def leftover (sizes : List ℚ) (pt : Point) (area : Area) : Except PyErr Rect :=
  if area.height ≤ area.width then leftoverrow sizes pt area else leftovercol sizes pt area

/-- Aspect ratio `max(rect.width / rect.height, rect.height / rect.width)` of one rect;
    the first division is evaluated first, as in Python. -/
def rectRatio (r : Rect) : Except PyErr ℚ :=
  (pydiv (r.area.width : ℚ) (r.area.height : ℚ)).bind fun a =>
    (pydiv (r.area.height : ℚ) (r.area.width : ℚ)).bind fun b =>
      .ok (max a b)

/-- Source `worstRatio(sizes, pt, area)`: the maximum per-rect aspect ratio of
    `layout(sizes, pt, area)`; `max` of an empty sequence raises `ValueError`. -/
def worstRatio (sizes : List ℚ) (pt : Point) (area : Area) : Except PyErr ℚ :=
  (layout sizes pt area).bind fun rects =>
    (mapExcept rectRatio rects).bind fun qs =>
      match qs with
      | [] => .error .valueError
      | q :: tl => .ok (tl.foldl max q)

/-- The split-search loop of `squarify`:
    `for i in range(1, len(sizes)): if worstRatio(sizes[:i], ...) < worstRatio(sizes[:i+1], ...): break`.
    `i` is the current loop value, `rem` the number of iterations still to run
    (including the current one); the result is the final value of `i`, which is
    the break point, or `len(sizes) - 1` when the loop runs to completion. -/
def splitLoop (sizes : List ℚ) (pt : Point) (area : Area) : ℕ → ℕ → Except PyErr ℕ
  | i, 0 => .ok i
  | i, rem + 1 =>
    (worstRatio (sizes.take i) pt area).bind fun w1 =>
      (worstRatio (sizes.take (i + 1)) pt area).bind fun w2 =>
        if w1 < w2 then .ok i
        else
          match rem with
          | 0 => .ok i
          | r + 1 => splitLoop sizes pt area (i + 1) (r + 1)

/-- Body of `squarify`, with explicit recursion fuel.  Each recursive call consumes at
    least one size (the split index is at least 1), so `sizes.length` fuel always
    suffices; the fuel-exhausted branch is unreachable from `squarify` below. -/
def squarifyFuel : ℕ → List ℚ → Point → Area → Except PyErr (List Rect)
  | 0, _, _, _ => .error .recursionLimit
  | _ + 1, [], _, _ => .ok []
  | _ + 1, [s], pt, area => layout [s] pt area
  | fuel + 1, s0 :: s1 :: rest, pt, area =>
    (splitLoop (s0 :: s1 :: rest) pt area 1 (rest.length + 1)).bind fun i =>
      (leftover ((s0 :: s1 :: rest).take i) pt area).bind fun lo =>
        (layout ((s0 :: s1 :: rest).take i) pt area).bind fun first =>
          (squarifyFuel fuel ((s0 :: s1 :: rest).drop i) lo.topleft lo.area).bind fun rest2 =>
            .ok (first ++ rest2)

/-- Source `squarify(sizes, pt, area)`: empty input gives `[]`, a
    singleton is laid out directly, otherwise the split loop selects
    `current = sizes[:i]`, which is laid out into `area`, and the remaining
    sizes are squarified into the leftover rectangle. -/
def squarify (sizes : List ℚ) (pt : Point) (area : Area) : Except PyErr (List Rect) :=
  squarifyFuel (sizes.length + 1) sizes pt area

/-- Total covered area of a list of rects, `sum(width_i * height_i)`. -/
def totalArea (rs : List Rect) : ℤ :=
  (rs.map fun r => r.area.width * r.area.height).sum

/-- A Python number as passed to `normalize_sizes`: an int or a float.
    `size * area` dispatches on this type: ints hit `Area.__mul__`'s
    sqrt-scaling branch, floats its scalar branch. -/
inductive PyNum where
  | int (n : ℤ)
  | float (q : ℚ)
deriving DecidableEq, Repr

/-- Numeric value of a `PyNum`. -/
def PyNum.val : PyNum → ℚ
  | .int n => (n : ℚ)
  | .float q => q

/-- A weight the library's normalisation handles without a type error:
    any float, or a non-negative int (a negative int sends `n**0.5` into the
    complex numbers and `int(...)` then raises `TypeError`). -/
def PyNum.valid : PyNum → Prop
  | .int n => 0 ≤ n
  | .float _ => True

/-- Value of `int(w * n**0.5)` for an integer coordinate `w` and a non-negative int `n`:
    truncation toward zero of `w·√n`, i.e. `sign(w) · ⌊|w|·√n⌋`, and
    `⌊|w|·√n⌋ = Nat.sqrt (w² · n)`. -/
def intSqrtScale (w : ℤ) (n : ℕ) : ℤ :=
  if 0 ≤ w then (Nat.sqrt (w.toNat ^ 2 * n) : ℤ)
  else -(Nat.sqrt ((-w).toNat ^ 2 * n) : ℤ)

/-- Scaling `Area.__mul__` with an int argument: `Area(int(w * n**0.5), int(h * n**0.5))`. -/
def scaleArea (a : Area) (n : ℕ) : Area :=
  ⟨intSqrtScale a.width n, intSqrtScale a.height n⟩

/-- One element of the `normalize_sizes` comprehension, `size * area / totalSize`.
    For an int size, `size * area` is `Area.__mul__(int)` (sqrt scaling, after
    which `Area.__truediv__` divides the scaled width·height by `totalSize`);
    a negative int makes `n**0.5` complex and `int(...)` raise `TypeError`.
    For a float size, `size * area` is the scalar `size · width · height`. -/
def sizeTimesAreaDiv (area : Area) (total : ℚ) : PyNum → Except PyErr ℚ
  | .int n =>
    if n < 0 then .error .typeError
    else
      if total = 0 then .error .zeroDivision
      else .ok ((((scaleArea area n.toNat).width * (scaleArea area n.toNat).height : ℤ) : ℚ) / total)
  | .float q =>
    if total = 0 then .error .zeroDivision
    else .ok (q * (area.width : ℚ) * (area.height : ℚ) / total)

/-- Source `normalize_sizes(sizes, area)`: `totalSize = sum(sizes)`, then
    `[size * area / totalSize for size in sizes]`. -/
def normalize_sizes (sizes : List PyNum) (area : Area) : Except PyErr (List ℚ) :=
  mapExcept (sizeTimesAreaDiv area ((sizes.map PyNum.val).sum)) sizes

/-- The dict shape `{'x':…, 'y':…, 'dx':…, 'dy':…}` that `pad_rectangle`
    actually subscripts (the upstream representation of a rectangle). -/
structure DictRect where
  x : ℤ
  y : ℤ
  dx : ℤ
  dy : ℤ
deriving DecidableEq, Repr

/-- Source `pad_rectangle` on the dict shape it reads: shrink `dx` by 2 (moving `x` by 1)
    when `dx > 2`, and independently shrink `dy` by 2 (moving `y` by 1) when
    `dy > 2`.  (In the source the dict is mutated in place and the function
    returns `None`.) -/
def pad_rectangle (rect : DictRect) : DictRect :=
  let r1 := if rect.dx > 2 then { rect with x := rect.x + 1, dx := rect.dx - 2 } else rect
  if r1.dy > 2 then { r1 with y := r1.y + 1, dy := r1.dy - 2 } else r1

/-- Source `padded_squarify(sizes, …) = [pad_rectangle(rect) for rect in squarify(…)]`.
    `squarify` returns `Rect` NamedTuples, which support only integer indexing,
    so `rect['dx']` inside `pad_rectangle` raises `TypeError` at the first
    element; an empty result maps to the empty list without any call.
    (`pad_rectangle` returns `None`, hence the element type `Unit`.) -/
def padded_squarify (sizes : List ℚ) (pt : Point) (area : Area) : Except PyErr (List Unit) :=
  match squarify sizes pt area with
  | .error e => .error e
  | .ok [] => .ok []
  | .ok (_ :: _) => .error .typeError

/-- Successful bind inversion for `Except`. -/
theorem except_bind_ok {α β : Type} (x : Except PyErr α) (f : α → Except PyErr β) (b : β) :
    x.bind f = .ok b ↔ ∃ a, x = .ok a ∧ f a = .ok b := by
  cases x <;> simp [Except.bind]

/-- Failing bind inversion for `Except`. -/
theorem except_bind_error {α β : Type} (x : Except PyErr α) (f : α → Except PyErr β) (e : PyErr) :
    x.bind f = .error e ↔ x = .error e ∨ ∃ a, x = .ok a ∧ f a = .error e := by
  cases x <;> simp [Except.bind]

/-- Division `pydiv` by zero raises `ZeroDivisionError`. -/
theorem pydiv_zero (a : ℚ) {b : ℚ} (hb : b = 0) : pydiv a b = .error .zeroDivision := by
  unfold pydiv
  rw [if_pos hb]

/-- One unfolding step of the split loop when iterations remain. -/
theorem splitLoop_one (sizes : List ℚ) (pt : Point) (area : Area) (i r : ℕ) :
    splitLoop sizes pt area i (r + 1) =
      (worstRatio (sizes.take i) pt area).bind fun w1 =>
        (worstRatio (sizes.take (i + 1)) pt area).bind fun w2 =>
          if w1 < w2 then .ok i
          else
            match r with
            | 0 => .ok i
            | r2 + 1 => splitLoop sizes pt area (i + 1) (r2 + 1) := by
  cases r <;> rfl

/-- Truncation of an integer value is that integer. -/
theorem pytrunc_intCast (n : ℤ) : pytrunc (n : ℚ) = n := by
  unfold pytrunc
  split
  · exact Int.floor_intCast n
  · rw [← Int.cast_neg, Int.floor_intCast]
    ring

/-- Truncation toward zero of a rational that is at least 1 is at least 1. -/
theorem pytrunc_one_le {q : ℚ} (h : 1 ≤ q) : 1 ≤ pytrunc q := by
  unfold pytrunc
  rw [if_pos (le_trans zero_le_one h)]
  exact Int.le_floor.mpr (by exact_mod_cast h)

/-- If every element maps to a success, `mapExcept` succeeds with the mapped list. -/
theorem mapExcept_ok {α β : Type} (f : α → Except PyErr β) (g : α → β)
    (l : List α) (h : ∀ a ∈ l, f a = .ok (g a)) :
    mapExcept f l = .ok (l.map g) := by
  induction l with
  | nil => rfl
  | cons a as ih =>
    have ha := h a (List.mem_cons_self a as)
    have hrest := ih fun x hx => h x (List.mem_cons_of_mem a hx)
    simp [mapExcept, ha, hrest, Except.bind]

/-- C8: `squarify` of the empty list is the empty sequence, and a single
    positive weight in a target with positive width and height yields exactly
    one rectangle equal to `(origin, extent)`. -/
theorem squarify_empty_and_singleton :
    (∀ (pt : Point) (area : Area), squarify [] pt area = .ok []) ∧
    (∀ (w : ℚ) (pt : Point) (area : Area), 0 < w → 0 < area.width → 0 < area.height →
      squarify [w] pt area = .ok [⟨pt, area⟩]) := by
  constructor
  · intro pt area
    rfl
  · intro w pt area hw hW hH
    have hwne : w ≠ 0 := ne_of_gt hw
    have hWne : (area.width : ℚ) ≠ 0 := Int.cast_ne_zero.mpr (ne_of_gt hW)
    have hHne : (area.height : ℚ) ≠ 0 := Int.cast_ne_zero.mpr (ne_of_gt hH)
    have hsum : ([w] : List ℚ).sum = w := by simp
    show squarifyFuel 2 [w] pt area = .ok [⟨pt, area⟩]
    simp only [squarifyFuel]
    unfold layout
    split
    · have hdiv1 : pydiv ([w] : List ℚ).sum (area.height : ℚ) =
          .ok (w / (area.height : ℚ)) := by
        rw [hsum]
        unfold pydiv
        rw [if_neg hHne]
      have hqne : w / (area.height : ℚ) ≠ 0 := div_ne_zero hwne hHne
      have hval : w / (w / (area.height : ℚ)) = (area.height : ℚ) := by
        field_simp
      have hdiv2 : pydiv w (w / (area.height : ℚ)) = .ok ((area.height : ℚ)) := by
        unfold pydiv
        rw [if_neg hqne, hval]
      simp only [layoutrow, hdiv1, Except.bind, layoutrowGo, hdiv2, pytrunc_intCast]
    · have hdiv1 : pydiv ([w] : List ℚ).sum (area.width : ℚ) =
          .ok (w / (area.width : ℚ)) := by
        rw [hsum]
        unfold pydiv
        rw [if_neg hWne]
      have hqne : w / (area.width : ℚ) ≠ 0 := div_ne_zero hwne hWne
      have hval : w / (w / (area.width : ℚ)) = (area.width : ℚ) := by
        field_simp
      have hdiv2 : pydiv w (w / (area.width : ℚ)) = .ok ((area.width : ℚ)) := by
        unfold pydiv
        rw [if_neg hqne, hval]
      simp only [layoutcol, hdiv1, Except.bind, layoutcolGo, hdiv2, pytrunc_intCast]

/-- Witness for C8: the spec's concrete scenarios. -/
theorem squarify_empty_and_singleton_witness :
    squarify [] ⟨0, 0⟩ ⟨10, 10⟩ = .ok [] ∧
    squarify [(100 : ℚ)] ⟨5, 5⟩ ⟨10, 20⟩ = .ok [⟨⟨5, 5⟩, ⟨10, 20⟩⟩] :=
  ⟨squarify_empty_and_singleton.1 ⟨0, 0⟩ ⟨10, 10⟩,
    squarify_empty_and_singleton.2 100 ⟨5, 5⟩ ⟨10, 20⟩ (by norm_num) (by norm_num)
      (by norm_num)⟩

/-- C1 (failing input): on the normalized weights `[100, 100]` for the
    20×10 target (sum 200 = 20·10), `squarify` emits a first rectangle covering
    the whole target and a second 10×10 rectangle: covered area 300 ≠ 200. -/
theorem squarify_area_not_conserved :
    squarify [(100 : ℚ), 100] ⟨0, 0⟩ ⟨20, 10⟩ =
      .ok [⟨⟨0, 0⟩, ⟨20, 10⟩⟩, ⟨⟨10, 0⟩, ⟨10, 10⟩⟩] ∧
    totalArea [⟨⟨0, 0⟩, ⟨20, 10⟩⟩, ⟨⟨10, 0⟩, ⟨10, 10⟩⟩] = 300 ∧
    (300 : ℤ) ≠ 20 * 10 := by
  refine ⟨?_, by norm_num [totalArea], by norm_num⟩
  norm_num [squarify, squarifyFuel, splitLoop, worstRatio, layout, layoutrow,
    layoutcol, layoutrowGo, layoutcolGo, leftover, leftoverrow, leftovercol,
    rectRatio, mapExcept, pydiv, pytrunc, Except.bind]

/-- C2 (failing input): on the normalized weights `[50, 150]` for the 20×10
    target, the first strip is `[50]` in row orientation with
    `stripWidth = 50 / 10 = 5`, but the emitted rectangle has width 20
    (the full target width), not 5. -/
theorem layoutrow_emits_full_width :
    squarify [(50 : ℚ), 150] ⟨0, 0⟩ ⟨20, 10⟩ =
      .ok [⟨⟨0, 0⟩, ⟨20, 10⟩⟩, ⟨⟨5, 0⟩, ⟨15, 10⟩⟩] ∧
    ([(50 : ℚ)].sum / ((10 : ℤ) : ℚ)) = 5 ∧
    ((20 : ℤ) ≠ 5) := by
  refine ⟨?_, by norm_num, by norm_num⟩
  norm_num [squarify, squarifyFuel, splitLoop, worstRatio, layout, layoutrow,
    layoutcol, layoutrowGo, layoutcolGo, leftover, leftoverrow, leftovercol,
    rectRatio, mapExcept, pydiv, pytrunc, Except.bind]

/-- C6 (counterexample): a target with negative width and weights remaining
    raises nothing at all — `squarify` returns a rectangle of negative width. -/
theorem squarify_negative_extent_no_error :
    squarify [(100 : ℚ)] ⟨0, 0⟩ ⟨-5, 10⟩ = .ok [⟨⟨0, 0⟩, ⟨-5, 10⟩⟩] := by
  norm_num [squarify, squarifyFuel, layout, layoutrow, layoutcol, layoutrowGo,
    layoutcolGo, pydiv, pytrunc, Except.bind]

/-- A row layout into a zero-height target raises `ZeroDivisionError`. -/
theorem layout_zero_height (sizes : List ℚ) (pt : Point) (area : Area)
    (hh : area.height = 0) (hw : 0 ≤ area.width) :
    layout sizes pt area = .error .zeroDivision := by
  unfold layout
  rw [if_pos (by omega : area.height ≤ area.width)]
  unfold layoutrow
  rw [pydiv_zero sizes.sum (Int.cast_eq_zero.mpr hh)]
  rfl

/-- Evaluating `worstRatio` into a zero-height target raises `ZeroDivisionError`. -/
theorem worstRatio_zero_height (sizes : List ℚ) (pt : Point) (area : Area)
    (hh : area.height = 0) (hw : 0 ≤ area.width) :
    worstRatio sizes pt area = .error .zeroDivision := by
  unfold worstRatio
  rw [layout_zero_height sizes pt area hh hw]
  rfl

/-- A column layout into a zero-width target raises `ZeroDivisionError`. -/
theorem layout_zero_width (sizes : List ℚ) (pt : Point) (area : Area)
    (hw : area.width = 0) (hcol : area.width < area.height) :
    layout sizes pt area = .error .zeroDivision := by
  unfold layout
  rw [if_neg (by omega : ¬ area.height ≤ area.width)]
  unfold layoutcol
  rw [pydiv_zero sizes.sum (Int.cast_eq_zero.mpr hw)]
  rfl

/-- Evaluating `worstRatio` into a zero-width column target raises
    `ZeroDivisionError`. -/
theorem worstRatio_zero_width (sizes : List ℚ) (pt : Point) (area : Area)
    (hw : area.width = 0) (hcol : area.width < area.height) :
    worstRatio sizes pt area = .error .zeroDivision := by
  unfold worstRatio
  rw [layout_zero_width sizes pt area hw hcol]
  rfl

/-- C6 (amended): with weights remaining and a degenerate target whose
    strip-divisor dimension is zero — height 0 with non-negative width, where
    row orientation is chosen, or width 0 with larger height, where column
    orientation is chosen — `squarify` raises `ZeroDivisionError`, not a
    dedicated `DegenerateRectangle` error, which does not exist in the code,
    and no rectangles are returned; the empty weight list returns `[]`
    without touching the target. -/
theorem squarify_zero_height_zero_division :
    (∀ (sizes : List ℚ) (pt : Point) (area : Area), sizes ≠ [] → area.height = 0 →
      0 ≤ area.width → squarify sizes pt area = .error .zeroDivision) ∧
    (∀ (sizes : List ℚ) (pt : Point) (area : Area), sizes ≠ [] → area.width = 0 →
      area.width < area.height → squarify sizes pt area = .error .zeroDivision) ∧
    (∀ (pt : Point) (area : Area), squarify [] pt area = .ok []) := by
  refine ⟨?_, ?_, ?_⟩
  · intro sizes pt area hne hh hw
    cases sizes with
    | nil => exact absurd rfl hne
    | cons s0 tail =>
      cases tail with
      | nil =>
        show squarifyFuel 2 [s0] pt area = _
        simp only [squarifyFuel]
        exact layout_zero_height [s0] pt area hh hw
      | cons s1 rest =>
        show squarifyFuel ((s0 :: s1 :: rest).length + 1) (s0 :: s1 :: rest) pt area = _
        simp only [List.length_cons, squarifyFuel]
        have hsp : splitLoop (s0 :: s1 :: rest) pt area 1 (rest.length + 1) =
            .error .zeroDivision := by
          rw [splitLoop_one]
          rw [worstRatio_zero_height _ pt area hh hw]
          rfl
        rw [hsp]
        rfl
  · intro sizes pt area hne hw hcol
    cases sizes with
    | nil => exact absurd rfl hne
    | cons s0 tail =>
      cases tail with
      | nil =>
        show squarifyFuel 2 [s0] pt area = _
        simp only [squarifyFuel]
        exact layout_zero_width [s0] pt area hw hcol
      | cons s1 rest =>
        show squarifyFuel ((s0 :: s1 :: rest).length + 1) (s0 :: s1 :: rest) pt area = _
        simp only [List.length_cons, squarifyFuel]
        have hsp : splitLoop (s0 :: s1 :: rest) pt area 1 (rest.length + 1) =
            .error .zeroDivision := by
          rw [splitLoop_one]
          rw [worstRatio_zero_width _ pt area hw hcol]
          rfl
        rw [hsp]
        rfl
  · intro pt area
    rfl

/-- Witness for C6 at concrete inputs, one per part. -/
theorem squarify_zero_height_zero_division_witness :
    squarify [(5 : ℚ)] ⟨0, 0⟩ ⟨3, 0⟩ = .error .zeroDivision ∧
    squarify [(4 : ℚ)] ⟨0, 0⟩ ⟨0, 5⟩ = .error .zeroDivision ∧
    squarify [] ⟨0, 0⟩ ⟨7, 7⟩ = .ok [] :=
  ⟨squarify_zero_height_zero_division.1 [5] ⟨0, 0⟩ ⟨3, 0⟩ (by simp) rfl (by norm_num),
    squarify_zero_height_zero_division.2.1 [4] ⟨0, 0⟩ ⟨0, 5⟩ (by simp) rfl (by norm_num),
    squarify_zero_height_zero_division.2.2 ⟨0, 0⟩ ⟨7, 7⟩⟩

/-- C9 (failing input): `padded_squarify` on any input with at least one
    rectangle raises `TypeError`, because `pad_rectangle` subscripts
    `rect['dx']` on a `Rect` NamedTuple; and on the dict shape it was written
    for, `pad_rectangle` shrinks each dimension independently with a fixed
    inset of 1 per side (here `dx` is shrunk although `dy - 2` would not stay
    positive) rather than taking an `insetAmount` and requiring both dimensions
    to stay positive. -/
theorem padded_squarify_type_error :
    padded_squarify [(100 : ℚ)] ⟨5, 5⟩ ⟨10, 20⟩ = .error .typeError ∧
    pad_rectangle ⟨0, 0, 5, 1⟩ = ⟨1, 0, 3, 1⟩ := by
  constructor
  · norm_num [padded_squarify, squarify, squarifyFuel, layout, layoutrow, layoutcol,
      layoutrowGo, layoutcolGo, pydiv, pytrunc, Except.bind]
  · norm_num [pad_rectangle]

/-- C3 (counterexample): on `[10, 10]` in the target `(-1, -2)`, adding the
    second weight does not strictly increase the worst ratio (it goes from 2
    down to 1), yet the selected strip is `sizes[:1] = [10]`, not all the
    weights: `squarify` lays the two weights out as two separate one-item
    strips. -/
theorem splitLoop_excludes_final_weight :
    worstRatio [(10 : ℚ)] ⟨0, 0⟩ ⟨-1, -2⟩ = .ok 2 ∧
    worstRatio [(10 : ℚ), 10] ⟨0, 0⟩ ⟨-1, -2⟩ = .ok 1 ∧
    splitLoop [(10 : ℚ), 10] ⟨0, 0⟩ ⟨-1, -2⟩ 1 1 = .ok 1 ∧
    squarify [(10 : ℚ), 10] ⟨0, 0⟩ ⟨-1, -2⟩ =
      .ok [⟨⟨0, 0⟩, ⟨-1, -2⟩⟩, ⟨⟨-5, 0⟩, ⟨4, -2⟩⟩] := by
  refine ⟨?_, ?_, ?_, ?_⟩ <;>
    norm_num [squarify, squarifyFuel, splitLoop, worstRatio, layout, layoutrow,
      layoutcol, layoutrowGo, layoutcolGo, leftover, leftoverrow, leftovercol,
      rectRatio, mapExcept, pydiv, pytrunc, Except.bind]

/-- Invariant of the split loop: a successful run starting at index `i0` with
    `rem` iterations left returns the first index whose extension strictly
    increases the worst ratio, every earlier extension being non-increasing;
    when no extension strictly increases, it returns the index of the last
    iteration, `i0 + rem - 1`. -/
theorem splitLoop_spec :
    ∀ (rem i0 : ℕ) (sizes : List ℚ) (pt : Point) (area : Area) (j : ℕ),
      1 ≤ rem → splitLoop sizes pt area i0 rem = .ok j →
      i0 ≤ j ∧ j + 1 ≤ i0 + rem ∧
      (∀ i, i0 ≤ i → i < j →
        ∃ w1 w2, worstRatio (sizes.take i) pt area = .ok w1 ∧
          worstRatio (sizes.take (i + 1)) pt area = .ok w2 ∧ w2 ≤ w1) ∧
      ((∃ w1 w2, worstRatio (sizes.take j) pt area = .ok w1 ∧
          worstRatio (sizes.take (j + 1)) pt area = .ok w2 ∧ w1 < w2) ∨
        j + 1 = i0 + rem) := by
  intro rem
  induction rem with
  | zero =>
    intro i0 sizes pt area j h0
    exact absurd h0 (by norm_num)
  | succ r ih =>
    intro i0 sizes pt area j hr h
    rw [splitLoop_one] at h
    rw [except_bind_ok] at h
    obtain ⟨w1, hw1, h⟩ := h
    rw [except_bind_ok] at h
    obtain ⟨w2, hw2, h⟩ := h
    by_cases hlt : w1 < w2
    · rw [if_pos hlt] at h
      injection h with h
      subst h
      exact ⟨le_refl _, by omega, fun i hi1 hi2 => absurd hi2 (by omega),
        Or.inl ⟨w1, w2, hw1, hw2, hlt⟩⟩
    · rw [if_neg hlt] at h
      cases r with
      | zero =>
        injection h with h
        subst h
        exact ⟨le_refl _, by omega, fun i hi1 hi2 => absurd hi2 (by omega),
          Or.inr (by omega)⟩
      | succ r2 =>
        obtain ⟨hj1, hj2, hall, hlast⟩ := ih (i0 + 1) sizes pt area j (by omega) h
        refine ⟨by omega, by omega, ?_, ?_⟩
        · intro i hi1 hi2
          rcases eq_or_lt_of_le hi1 with heq | hgt
          · subst heq
            exact ⟨w1, w2, hw1, hw2, not_lt.mp hlt⟩
          · exact hall i (by omega) hi2
        · rcases hlast with hl | hl
          · exact Or.inl hl
          · exact Or.inr (by omega)

/-- C3 (amended): for at least two weights, the strip chosen by `squarify`
    is `sizes[:j]` where `j` is the smallest index at which adding one more
    item strictly increases the worst ratio — the boundary item is included
    exactly when it does not increase the worst ratio, ties growing the
    strip — and when no extension ever strictly increases the worst ratio,
    `j = len(sizes) - 1`: the final weight is never part of the strip. -/
theorem squarify_split_characterization :
    ∀ (sizes : List ℚ) (pt : Point) (area : Area) (j : ℕ), 2 ≤ sizes.length →
      splitLoop sizes pt area 1 (sizes.length - 1) = .ok j →
      (1 ≤ j ∧ j ≤ sizes.length - 1) ∧
      (∀ i, 1 ≤ i → i < j →
        ∃ w1 w2, worstRatio (sizes.take i) pt area = .ok w1 ∧
          worstRatio (sizes.take (i + 1)) pt area = .ok w2 ∧ w2 ≤ w1) ∧
      ((∃ w1 w2, worstRatio (sizes.take j) pt area = .ok w1 ∧
          worstRatio (sizes.take (j + 1)) pt area = .ok w2 ∧ w1 < w2) ∨
        j = sizes.length - 1) := by
  intro sizes pt area j hlen h
  obtain ⟨h1, h2, h3, h4⟩ := splitLoop_spec (sizes.length - 1) 1 sizes pt area j (by omega) h
  refine ⟨⟨h1, by omega⟩, h3, ?_⟩
  rcases h4 with h4 | h4
  · exact Or.inl h4
  · exact Or.inr (by omega)

/-- Witness for C3's amended characterization at a concrete input. -/
theorem squarify_split_characterization_witness :
    ((1 ≤ 1 ∧ 1 ≤ [(100 : ℚ), 100].length - 1) ∧
      (∀ i, 1 ≤ i → i < 1 →
        ∃ w1 w2, worstRatio ([(100 : ℚ), 100].take i) ⟨0, 0⟩ ⟨20, 10⟩ = .ok w1 ∧
          worstRatio ([(100 : ℚ), 100].take (i + 1)) ⟨0, 0⟩ ⟨20, 10⟩ = .ok w2 ∧ w2 ≤ w1) ∧
      ((∃ w1 w2, worstRatio ([(100 : ℚ), 100].take 1) ⟨0, 0⟩ ⟨20, 10⟩ = .ok w1 ∧
          worstRatio ([(100 : ℚ), 100].take (1 + 1)) ⟨0, 0⟩ ⟨20, 10⟩ = .ok w2 ∧ w1 < w2) ∨
        1 = [(100 : ℚ), 100].length - 1)) :=
  squarify_split_characterization [100, 100] ⟨0, 0⟩ ⟨20, 10⟩ 1 (by norm_num)
    (by norm_num [splitLoop, worstRatio, layout, layoutrow, layoutcol, layoutrowGo,
      layoutcolGo, rectRatio, mapExcept, pydiv, pytrunc, Except.bind])

/-- If every element maps to some success, `mapExcept` succeeds. -/
theorem mapExcept_exists {α β : Type} (f : α → Except PyErr β) (l : List α)
    (h : ∀ a ∈ l, ∃ b, f a = .ok b) : ∃ bs, mapExcept f l = .ok bs := by
  induction l with
  | nil => exact ⟨[], rfl⟩
  | cons a as ih =>
    obtain ⟨b, hb⟩ := h a (List.mem_cons_self a as)
    obtain ⟨bs, hbs⟩ := ih fun x hx => h x (List.mem_cons_of_mem a hx)
    exact ⟨b :: bs, by simp [mapExcept, hb, hbs, Except.bind]⟩

/-- C5 (counterexample): a non-empty weight list with negative sum is
    normalised without any error — `normalize_sizes([-1.0], Area(10, 10))`
    returns `[100.0]`. -/
theorem normalize_sizes_negative_sum_no_error :
    normalize_sizes [.float (-1)] ⟨10, 10⟩ = .ok [100] := by
  norm_num [normalize_sizes, mapExcept, sizeTimesAreaDiv, PyNum.val, Except.bind]

/-- C5 (amended): `normalize_sizes` raises `ZeroDivisionError` — there is no
    `InvalidInput` error in the code — exactly on non-empty weights summing to
    0 (given no negative-int weight, which would raise `TypeError` first);
    any nonzero sum, negative ones included, is processed without error. -/
theorem normalize_sizes_zero_sum_only :
    (∀ (sizes : List PyNum) (area : Area), sizes ≠ [] →
      (∀ s ∈ sizes, PyNum.valid s) → (sizes.map PyNum.val).sum = 0 →
      normalize_sizes sizes area = .error .zeroDivision) ∧
    (∀ (sizes : List PyNum) (area : Area), (∀ s ∈ sizes, PyNum.valid s) →
      (sizes.map PyNum.val).sum ≠ 0 →
      ∃ l, normalize_sizes sizes area = .ok l) := by
  constructor
  · intro sizes area hne hvalid hsum
    cases sizes with
    | nil => exact absurd rfl hne
    | cons s tail =>
      unfold normalize_sizes
      rw [hsum]
      have hs : sizeTimesAreaDiv area 0 s = .error .zeroDivision := by
        cases s with
        | int n =>
          have hn : ¬ n < 0 := not_lt.mpr (hvalid (.int n) (List.mem_cons_self _ _))
          simp [sizeTimesAreaDiv, hn]
        | float q => simp [sizeTimesAreaDiv]
      simp only [mapExcept, hs]
      rfl
  · intro sizes area hvalid hsum
    unfold normalize_sizes
    apply mapExcept_exists
    intro s hs
    cases s with
    | int n =>
      have hn : ¬ n < 0 := not_lt.mpr (hvalid (.int n) hs)
      exact ⟨(((scaleArea area n.toNat).width * (scaleArea area n.toNat).height : ℤ) : ℚ) /
        (sizes.map PyNum.val).sum, by simp [sizeTimesAreaDiv, hn, hsum]⟩
    | float q =>
      exact ⟨q * (area.width : ℚ) * (area.height : ℚ) / (sizes.map PyNum.val).sum,
        by simp [sizeTimesAreaDiv, hsum]⟩

/-- Witness for C5 at concrete inputs. -/
theorem normalize_sizes_zero_sum_only_witness :
    normalize_sizes [.float 1, .float (-1)] ⟨10, 10⟩ = .error .zeroDivision ∧
    ∃ l, normalize_sizes [.float 2] ⟨3, 3⟩ = .ok l :=
  ⟨normalize_sizes_zero_sum_only.1 [.float 1, .float (-1)] ⟨10, 10⟩ (by simp)
      (by intro s hs; fin_cases hs <;> trivial) (by norm_num [PyNum.val]),
    normalize_sizes_zero_sum_only.2 [.float 2] ⟨3, 3⟩
      (by intro s hs; fin_cases hs; trivial) (by norm_num [PyNum.val])⟩

/-- C4 (counterexample): on the spec's own example, integer weights take
    `Area.__mul__`'s sqrt-scaling branch: the result is
    `[103666336/61, 20732465/61, 2073600/61]`, which is not
    `[w * 1920*1080 / 61 for w in [50, 10, 1]]`; it sums to `126472401/61`,
    not to the target area 2073600, and the 50:10:1 proportions are lost. -/
theorem normalize_sizes_int_path_deviates :
    normalize_sizes [.int 50, .int 10, .int 1] ⟨1920, 1080⟩ =
      .ok [103666336/61, 20732465/61, 2073600/61] ∧
    (103666336 / 61 + 20732465 / 61 + 2073600 / 61 : ℚ) ≠ (1920 : ℚ) * 1080 ∧
    (103666336 / 61 : ℚ) ≠ 50 * ((1920 : ℚ) * 1080) / 61 := by
  refine ⟨?_, by norm_num, by norm_num⟩
  norm_num [normalize_sizes, mapExcept, sizeTimesAreaDiv, scaleArea, intSqrtScale,
    PyNum.val, Int.toNat, Except.bind]

/-- C4 (amended): for float weights `normalize_sizes` returns exactly
    `[w * targetArea / total for w in weights]`, and (in exact arithmetic)
    that output sums to `targetArea`; proportions are preserved because each
    output is the same linear image `w ↦ w · targetArea / total` of its weight. -/
theorem normalize_sizes_float_formula :
    ∀ (qs : List ℚ) (area : Area), qs.sum ≠ 0 →
      normalize_sizes (qs.map PyNum.float) area =
        .ok (qs.map fun w => w * (area.width : ℚ) * (area.height : ℚ) / qs.sum) ∧
      (qs.map fun w => w * (area.width : ℚ) * (area.height : ℚ) / qs.sum).sum =
        (area.width : ℚ) * (area.height : ℚ) := by
  intro qs area htot
  have hval : ((qs.map PyNum.float).map PyNum.val) = qs := by
    rw [List.map_map]
    exact List.map_id qs
  constructor
  · unfold normalize_sizes
    rw [hval]
    have hmap := mapExcept_ok (sizeTimesAreaDiv area qs.sum)
      (fun p => p.val * (area.width : ℚ) * (area.height : ℚ) / qs.sum)
      (qs.map PyNum.float) ?_
    · rw [hmap, List.map_map]
      rfl
    · intro p hp
      obtain ⟨w, hw, rfl⟩ := List.mem_map.mp hp
      simp [sizeTimesAreaDiv, htot, PyNum.val]
  · have key : ∀ (l : List ℚ) (c : ℚ), (l.map fun w => w * c).sum = l.sum * c := by
      intro l c
      induction l with
      | nil => simp
      | cons a as ih => simp [ih, add_mul]
    have hfun : (fun w => w * (area.width : ℚ) * (area.height : ℚ) / qs.sum) =
        fun w => w * ((area.width : ℚ) * (area.height : ℚ) / qs.sum) := by
      funext w
      ring
    rw [hfun, key]
    field_simp

/-- Witness for C4's amended float-path formula at the spec's example weights. -/
theorem normalize_sizes_float_formula_witness :
    normalize_sizes ([(50 : ℚ), 10, 1].map PyNum.float) ⟨1920, 1080⟩ =
      .ok ([(50 : ℚ), 10, 1].map fun w =>
        w * ((1920 : ℤ) : ℚ) * ((1080 : ℤ) : ℚ) / [(50 : ℚ), 10, 1].sum) ∧
    ([(50 : ℚ), 10, 1].map fun w =>
      w * ((1920 : ℤ) : ℚ) * ((1080 : ℤ) : ℚ) / [(50 : ℚ), 10, 1].sum).sum =
      ((1920 : ℤ) : ℚ) * ((1080 : ℤ) : ℚ) :=
  normalize_sizes_float_formula [50, 10, 1] ⟨1920, 1080⟩ (by norm_num)

/-- C10 (counterexample): on strictly positive weights `[11.5, 0.5]` normalized
    to the positive 12×1 target (sum 12 = 12·1), row layout truncates both
    heights to 0, so `layout` emits zero-height rectangles, and `worstRatio`'s
    `rect.width / rect.height` divides by zero: `squarify` raises
    `ZeroDivisionError` on this input. -/
theorem layout_zero_height_rect_reachable :
    layout [(23/2 : ℚ), 1/2] ⟨0, 0⟩ ⟨12, 1⟩ =
      .ok [⟨⟨0, 0⟩, ⟨12, 0⟩⟩, ⟨⟨0, 0⟩, ⟨12, 0⟩⟩] ∧
    squarify [(23/2 : ℚ), 1/2] ⟨0, 0⟩ ⟨12, 1⟩ = .error .zeroDivision := by
  constructor <;>
    norm_num [squarify, squarifyFuel, splitLoop, worstRatio, layout, layoutrow,
      layoutcol, layoutrowGo, layoutcolGo, leftover, leftoverrow, leftovercol,
      rectRatio, mapExcept, pydiv, pytrunc, Except.bind]

/-- When the shared divisor is positive and every size is at least the divisor,
    the row loop succeeds and every rect has width `aw` and height at least 1. -/
theorem layoutrowGo_pos (aw : ℤ) (width : ℚ) (hwid : 0 < width) :
    ∀ (sizes : List ℚ) (pt : Point), (∀ s ∈ sizes, width ≤ s) →
      ∃ rects, layoutrowGo aw width sizes pt = .ok rects ∧
        rects.length = sizes.length ∧
        ∀ r ∈ rects, r.area.width = aw ∧ 1 ≤ r.area.height := by
  intro sizes
  induction sizes with
  | nil =>
    intro pt h
    exact ⟨[], rfl, rfl, by simp⟩
  | cons s rest ih =>
    intro pt h
    have hs : width ≤ s := h s (List.mem_cons_self s rest)
    have hq : pydiv s width = .ok (s / width) := by
      unfold pydiv
      rw [if_neg (ne_of_gt hwid)]
    have h1q : 1 ≤ s / width := (one_le_div hwid).mpr hs
    obtain ⟨rs, hrs, hlen, hpos⟩ :=
      ih ⟨pt.x, pt.y + pytrunc (s / width)⟩ fun x hx => h x (List.mem_cons_of_mem s hx)
    refine ⟨⟨pt, ⟨aw, pytrunc (s / width)⟩⟩ :: rs, ?_, by simp [hlen], ?_⟩
    · simp [layoutrowGo, hq, hrs, Except.bind]
    · intro r hr
      rcases List.mem_cons.mp hr with heq | hr2
      · subst heq
        exact ⟨rfl, pytrunc_one_le h1q⟩
      · exact hpos r hr2

/-- C10 (amended): in row orientation over a positive-extent target, every
    rectangle `layout` produces has strictly positive width and height — and
    `worstRatio` is then defined, with no division by zero — provided each
    weight's strip share `weight / stripWidth` is at least 1 (each weight at
    least `sum / target.height`); when a share truncates to 0 the layout emits
    a zero-height rectangle and `worstRatio` raises `ZeroDivisionError`, which
    `squarify` can reach even on positive normalized weights. -/
theorem layout_positive_dims_when_shares_cover :
    ∀ (sizes : List ℚ) (pt : Point) (area : Area), sizes ≠ [] →
      0 < area.width → 0 < area.height → area.height ≤ area.width →
      0 < sizes.sum → (∀ s ∈ sizes, sizes.sum / (area.height : ℚ) ≤ s) →
      ∃ rects, layout sizes pt area = .ok rects ∧
        (∀ r ∈ rects, 0 < r.area.width ∧ 0 < r.area.height) ∧
        ∃ wr, worstRatio sizes pt area = .ok wr := by
  intro sizes pt area hne hW hH hrow hsum hshare
  have hHq : (0 : ℚ) < (area.height : ℚ) := by exact_mod_cast hH
  have hwid : (0 : ℚ) < sizes.sum / (area.height : ℚ) := div_pos hsum hHq
  obtain ⟨rects, hgo, hlen, hpos⟩ :=
    layoutrowGo_pos area.width (sizes.sum / (area.height : ℚ)) hwid sizes pt hshare
  have hdiv : pydiv sizes.sum (area.height : ℚ) = .ok (sizes.sum / (area.height : ℚ)) := by
    unfold pydiv
    rw [if_neg (ne_of_gt hHq)]
  have hlay : layout sizes pt area = .ok rects := by
    unfold layout
    rw [if_pos hrow]
    unfold layoutrow
    rw [hdiv]
    exact hgo
  have hposdim : ∀ r ∈ rects, 0 < r.area.width ∧ 0 < r.area.height := by
    intro r hr
    obtain ⟨hw, hh⟩ := hpos r hr
    exact ⟨hw ▸ hW, by omega⟩
  refine ⟨rects, hlay, hposdim, ?_⟩
  have hratio : ∀ r ∈ rects, rectRatio r =
      .ok (max ((r.area.width : ℚ) / (r.area.height : ℚ))
        ((r.area.height : ℚ) / (r.area.width : ℚ))) := by
    intro r hr
    obtain ⟨hw, hh⟩ := hposdim r hr
    have hwq : ((r.area.width : ℚ)) ≠ 0 := Int.cast_ne_zero.mpr (ne_of_gt hw)
    have hhq : ((r.area.height : ℚ)) ≠ 0 := Int.cast_ne_zero.mpr (ne_of_gt hh)
    unfold rectRatio pydiv
    rw [if_neg hhq, if_neg hwq]
    rfl
  have hmap := mapExcept_ok rectRatio
    (fun r => max ((r.area.width : ℚ) / (r.area.height : ℚ))
      ((r.area.height : ℚ) / (r.area.width : ℚ))) rects hratio
  cases rects with
  | nil =>
    exact absurd (hlen.symm.trans rfl) (by simpa using List.length_eq_zero.not.mpr hne)
  | cons r0 rrest =>
    refine ⟨(rrest.map fun r => max ((r.area.width : ℚ) / (r.area.height : ℚ))
        ((r.area.height : ℚ) / (r.area.width : ℚ))).foldl max
        (max ((r0.area.width : ℚ) / (r0.area.height : ℚ))
        ((r0.area.height : ℚ) / (r0.area.width : ℚ))), ?_⟩
    unfold worstRatio
    rw [hlay]
    simp only [Except.bind]
    rw [hmap]
    simp only [Except.bind, List.map]

/-- Witness for C10's amended positivity statement at a concrete input. -/
theorem layout_positive_dims_when_shares_cover_witness :
    ∃ rects, layout [(6 : ℚ), 6] ⟨0, 0⟩ ⟨4, 3⟩ = .ok rects ∧
      (∀ r ∈ rects, 0 < r.area.width ∧ 0 < r.area.height) ∧
      ∃ wr, worstRatio [(6 : ℚ), 6] ⟨0, 0⟩ ⟨4, 3⟩ = .ok wr :=
  layout_positive_dims_when_shares_cover [6, 6] ⟨0, 0⟩ ⟨4, 3⟩ (by simp) (by norm_num)
    (by norm_num) (by norm_num) (by norm_num)
    (by intro s hs; fin_cases hs <;> norm_num)
